import Mathlib

/-!
Verification of the Botsy repository against its specification.

The repository is a RAG chatbot system: a Python backend (vector store,
retrieval, generation) and a React frontend (dashboard, bot editor, test
chat page, embeddable chat widget).  Only the frontend sources are present
in the checkout, so the backend Vector Store is modelled from the
specification; everything else below is a shallow embedding of the
TypeScript sources (Dashboard `handleBuildBot`, EditBot `handleUpdateBot`,
TestBot `sendMessage` / `clearChat` / `restartChat`, and the `ChatWidget`
component).  JavaScript string truthiness is embedded as "not the empty
string", and an absent optional string field as the empty string.
-/

namespace Botsy

/-! ### Vector Store (modelled from the spec) -/

/-- Modelled from the spec: the backend Vector Store is not present under
`src/` (the Python backend is missing from the checkout), so chunk records
are modelled from the data-model section of the specification: each chunk
carries its owning bot id (denormalized for scoped search), its owning
document id, a chunk id, a sequence index, an embedding vector and raw
text. -/
structure ChunkEntry where
  botId : String
  docId : String
  chunkId : String
  seqIndex : Nat
  vec : List Int
  text : String
deriving DecidableEq

/-- Modelled from the spec: the Vector Store persists chunk vectors plus
metadata per bot; we model its state as the list of stored chunk entries. -/
abbrev VectorStore := List ChunkEntry

/-- Modelled from the spec: `upsert(bot_id, chunk_id, vector, metadata)`
inserts a chunk entry, replacing any previous entry of the same bot with
the same chunk id. -/
def upsert (s : VectorStore) (e : ChunkEntry) : VectorStore :=
  e :: s.filter (fun c => !(c.botId = e.botId && c.chunkId = e.chunkId))

/-- Modelled from the spec: `delete(bot_id, document_id)` removes all
chunks of that document. -/
def deleteDoc (s : VectorStore) (botId docId : String) : VectorStore :=
  s.filter (fun c => !(c.botId = botId && c.docId = docId))

/-- Modelled from the spec: `delete_bot(bot_id)` removes all chunks of
that bot. -/
def deleteBot (s : VectorStore) (botId : String) : VectorStore :=
  s.filter (fun c => !(c.botId = botId))

/-- Dot product scoring, the monotone transform of cosine similarity the
spec allows over normalized vectors. -/
def dotScore (q v : List Int) : Int :=
  (List.zipWith (· * ·) q v).foldr (· + ·) 0

/-- Ranking order on scored chunks: higher score first, ties broken by the
original chunk sequence index (stable, deterministic ordering per the
spec). -/
def rankLE (a b : ChunkEntry × Int) : Bool :=
  b.2 < a.2 || (a.2 = b.2 && a.1.seqIndex ≤ b.1.seqIndex)

/-- Insertion step of the ranking sort. -/
def insertRanked (x : ChunkEntry × Int) : List (ChunkEntry × Int) → List (ChunkEntry × Int)
  | [] => [x]
  | y :: ys => if rankLE x y then x :: y :: ys else y :: insertRanked x ys

/-- Insertion sort by `rankLE`. -/
def rankSort : List (ChunkEntry × Int) → List (ChunkEntry × Int)
  | [] => []
  | x :: xs => insertRanked x (rankSort xs)

/-- Modelled from the spec: `search(bot_id, query_vector, top_k)` scores
exactly the chunks stored for `bot_id`, ranks them (score descending, ties
by sequence index) and returns at most `top_k` of them. -/
def vsearch (s : VectorStore) (botId : String) (q : List Int) (k : Nat) :
    List (ChunkEntry × Int) :=
  (rankSort ((s.filter (fun c => c.botId = botId)).map (fun c => (c, dotScore q c.vec)))).take k

/-- Modelled from the spec: the reachable Vector Store states are those
produced from the empty store by the three write operations. -/
inductive Reachable : VectorStore → Prop
  | empty : Reachable []
  | upsert (s : VectorStore) (e : ChunkEntry) : Reachable s → Reachable (upsert s e)
  | deleteDoc (s : VectorStore) (b d : String) : Reachable s → Reachable (deleteDoc s b d)
  | deleteBot (s : VectorStore) (b : String) : Reachable s → Reachable (deleteBot s b)

/-- Document ids stored for a given bot. -/
def docsOf (s : VectorStore) (botId : String) : List String :=
  (s.filter (fun c => c.botId = botId)).map (fun c => c.docId)

/-- A concrete first-tenant chunk used to witness the isolation theorem. -/
def chunkA : ChunkEntry :=
  ⟨"botA", "docA1", "chA1", 0, [1, 0], "refund window is 30 days"⟩

/-- Second tenant chunk of the witness store. -/
def chunkB : ChunkEntry :=
  ⟨"botB", "docB1", "chB1", 0, [1, 0], "private data of tenant B"⟩

/-- The witness store, reachable from the empty store by two upserts. -/
def storeAB : VectorStore := upsert (upsert [] chunkB) chunkA

/-! ### Chat data model (from `TestBot` and `ChatWidget` sources) -/

/-- A chat turn role, from the TS union type `'user' | 'assistant'`. -/
inductive Role
  | user
  | assistant
deriving DecidableEq

/-- Source metadata record with `url` and `title` fields, as produced by
the normalization in the ChatWidget-variant `sendMessage` and consumed by
`ChatWidget`. -/
structure SourceMeta where
  url : String
  title : String
deriving DecidableEq

/-- A normalized cited source: an object exposing a `metadata` record. -/
structure NormSource where
  metadata : SourceMeta
deriving DecidableEq

/-- A raw source object as it may arrive in the chat response, before
normalization: an optional `metadata` record plus the loose top-level
fields the fallback chains read (absent fields are the empty string). -/
structure RawSource where
  metadata : Option SourceMeta
  url : String
  source_url : String
  link : String
  title : String
  name : String
  filename : String
deriving DecidableEq

/-- Embedding of the JavaScript `a || b` on strings: the empty string is
falsy, everything else truthy. -/
def jsOr (a b : String) : String :=
  if a = "" then b else a

/-- Embedding of the JavaScript `String.prototype.trim()`: drop whitespace
from both ends (defined over the underlying character list so that it
evaluates by reduction). -/
def jsTrim (s : String) : String :=
  ⟨((s.data.dropWhile Char.isWhitespace).reverse.dropWhile Char.isWhitespace).reverse⟩

/-- The url fallback chain `src.url || src.source_url || src.link || ''`
from the source transform in `sendMessage`. -/
def urlFallback (src : RawSource) : String :=
  jsOr src.url (jsOr src.source_url (jsOr src.link ""))

/-- The title fallback chain
`src.title || src.name || src.filename || src.url || 'Source'`. -/
def titleFallback (src : RawSource) : String :=
  jsOr src.title (jsOr src.name (jsOr src.filename (jsOr src.url "Source")))

/-- The per-source transform in the ChatWidget-variant `sendMessage`: a
source whose `metadata` already has truthy `url` and `title` is kept as
is; otherwise a fresh `metadata` record is built from the fallback
chains. -/
def normalizeSource (src : RawSource) : NormSource :=
  match src.metadata with
  | some m =>
    if m.url ≠ "" ∧ m.title ≠ "" then ⟨m⟩
    else ⟨⟨urlFallback src, titleFallback src⟩⟩
  | none => ⟨⟨urlFallback src, titleFallback src⟩⟩

/-- The whole-list transform: only a non-empty source list is mapped
(`if (sources.length > 0)` in the source); the empty list stays empty. -/
def normalizeSources (srcs : List RawSource) : List NormSource :=
  if 0 < srcs.length then srcs.map normalizeSource else []

/-- A raw source with no metadata and every loose field absent, used to
exhibit the defined fallback values. -/
def emptyRawSource : RawSource := ⟨none, "", "", "", "", "", ""⟩

/-- A chat message as kept in the `messages` state: role, text, and the
optional cited-source list attached to assistant turns. -/
structure Message where
  role : Role
  content : String
  sources : Option (List NormSource)
deriving DecidableEq

/-- The body-plus-path data of `client.post('/api/chat/' + botId, {content})`:
everything the chat-turn request carries. -/
structure ChatRequest where
  botId : String
  content : String
deriving DecidableEq

/-- The fields of a successful chat response that `sendMessage` reads:
`response.data.message` and the optional `response.data.sources`. -/
structure ChatResponseData where
  message : String
  sources : Option (List RawSource)
deriving DecidableEq

/-- Outcome of awaiting the chat request: a response, or a thrown
error/timeout. -/
inductive ChatOutcome
  | ok (d : ChatResponseData)
  | err

/-- The component state of the ChatWidget-variant `TestBot` page that the
chat handlers touch: `messages`, `inputMessage`, `isLoading`,
`showSources` and `showMenu`. -/
structure TestBotState where
  messages : List Message
  inputMessage : String
  isLoading : Bool
  showSources : List (Nat × Bool)
  showMenu : Bool
deriving DecidableEq

/-- `const content = messageContent || inputMessage` — an absent or empty
`messageContent` argument falls back to the input field. -/
def effectiveContent : Option String → String → String
  | some s, input => if s = "" then input else s
  | none, input => input

/-- The graceful fallback answer appended when the chat request throws. -/
def fallbackAnswer : String := "Sorry, I encountered an error. Please try again."

/-- Shallow embedding of the ChatWidget-variant `sendMessage` run to
completion: the guard returns early on a blank effective message or while
a previous request is in flight; otherwise the user turn is appended, the
input field is cleared when no explicit `messageContent` was passed, the
request `{botId, content}` is issued, and depending on the outcome either
the assistant answer with normalized sources or the fallback apology is
appended, with `isLoading` reset in the `finally` block. -/
def sendMessage (botId : String) (st : TestBotState) (mc : Option String)
    (outcome : ChatOutcome) : TestBotState × Option ChatRequest :=
  let content := effectiveContent mc st.inputMessage
  if jsTrim content = "" ∨ st.isLoading = true then (st, none)
  else
    let input1 := if mc.getD "" = "" then "" else st.inputMessage
    let userMsg : Message := ⟨.user, content, none⟩
    let assistantMsg : Message :=
      match outcome with
      | .ok d => ⟨.assistant, d.message, some (normalizeSources (d.sources.getD []))⟩
      | .err => ⟨.assistant, fallbackAnswer, none⟩
    ({ st with
        messages := st.messages ++ [userMsg, assistantMsg],
        inputMessage := input1,
        isLoading := false },
      some ⟨botId, content⟩)

/-- A menu option: the display label and the hidden prompt. -/
structure MenuOption where
  option_name : String
  prompt : String
deriving DecidableEq

/-- The bot fields the chat page and widget read. -/
structure BotInfo where
  name : String
  description : String
  greeting_message : String
  menu_options : Option (List MenuOption)
deriving DecidableEq

/-- `clearChat` of the ChatWidget-variant `TestBot`: wipes messages, input,
source panels and the header menu flag. -/
def clearChat (st : TestBotState) : TestBotState :=
  { st with messages := [], inputMessage := "", showSources := [], showMenu := false }

/-- `restartChat`: clear, then re-seed the history with the greeting turn
when the loaded bot has a truthy `greeting_message`. -/
def restartChat (bot : Option BotInfo) (st : TestBotState) : TestBotState :=
  let st1 := clearChat st
  match bot with
  | some b =>
    if b.greeting_message = "" then st1
    else { st1 with messages := [⟨.assistant, b.greeting_message, none⟩] }
  | none => st1

/-- `handleMenuOptionClick` of `ChatWidget` composed with the `onSend`
wiring of the ChatWidget-variant `TestBot`: clicking an option calls
`sendMessage` with the hidden prompt as the explicit message content. -/
def handleMenuOptionClick (botId : String) (st : TestBotState) (opt : MenuOption)
    (outcome : ChatOutcome) : TestBotState × Option ChatRequest :=
  sendMessage botId st (some opt.prompt) outcome

/-- The menu-option render condition of `ChatWidget`
(`messages.length === 1 && messages[0].role === 'assistant' &&
bot.menu_options && ...`): `some labels` when the button row renders, with
one label per option; `none` when it does not render. -/
def menuButtons (msgs : List Message) (mo : Option (List MenuOption)) : Option (List String) :=
  match msgs, mo with
  | [m], some opts =>
    if m.role = .assistant then some (opts.map (fun o => o.option_name)) else none
  | _, _ => none

/-- Concrete menu option used as counterexample input for the menu-click
claim. -/
def pricingOpt : MenuOption := ⟨"Pricing", "What are your pricing plans?"⟩

/-- Concrete chat state (greeting shown, idle) used as counterexample
input. -/
def greetState : TestBotState := ⟨[⟨.assistant, "Hello!", none⟩], "", false, [], false⟩

/-! ### Ingestion batches (from `handleBuildBot` and `handleUpdateBot`) -/

/-- Per-item fate of an ingestion batch run. -/
inductive ItemResult
  | success
  | failed
  | notAttempted
deriving DecidableEq

/-- A sequence of awaited posts inside one `try` block: the first failing
item throws, so every later item is never attempted. -/
def runAborting : List Bool → List ItemResult
  | [] => []
  | ok :: rest =>
    if ok then .success :: runAborting rest
    else .failed :: rest.map (fun _ => .notAttempted)

/-- A loop whose body wraps each post in its own `try`/`catch` (the URL
loop of `handleUpdateBot`): every item is attempted, failures are recorded
per item. -/
def runIsolated (items : List Bool) : List ItemResult :=
  items.map (fun ok => if ok then .success else .failed)

/-- Whether a run threw (contains a failed item that aborted the batch). -/
def abortedRun (rs : List ItemResult) : Bool :=
  rs.any (fun r => r == ItemResult.failed)

/-- Shallow embedding of the ingestion phase of Dashboard `handleBuildBot`:
file uploads then URL posts, all awaited inside one `try`/`catch`, so a
failure anywhere aborts everything that follows. -/
def handleBuildBotIngest (files urls : List Bool) : List ItemResult × List ItemResult :=
  let fr := runAborting files
  if abortedRun fr then (fr, urls.map (fun _ => .notAttempted))
  else (fr, runAborting urls)

/-- Shallow embedding of the ingestion phase of EditBot `handleUpdateBot`:
file uploads are awaited bare inside the outer `try` (first failure aborts
the rest), while each URL post has its own inner `try`/`catch`. -/
def handleUpdateBotIngest (files urls : List Bool) : List ItemResult × List ItemResult :=
  let fr := runAborting files
  if abortedRun fr then (fr, urls.map (fun _ => .notAttempted))
  else (fr, runIsolated urls)

/-! ### Helper lemmas -/

theorem mem_insertRanked {a x : ChunkEntry × Int} {l : List (ChunkEntry × Int)}
    (h : a ∈ insertRanked x l) : a = x ∨ a ∈ l := by
  induction l with
  | nil => simpa [insertRanked] using h
  | cons y ys ih =>
    simp only [insertRanked] at h
    by_cases hc : rankLE x y
    · simp [hc] at h
      rcases h with h | h | h
      · exact Or.inl h
      · exact Or.inr (by simp [h])
      · exact Or.inr (by simp [h])
    · simp [hc] at h
      rcases h with h | h
      · exact Or.inr (by simp [h])
      · rcases ih h with h' | h'
        · exact Or.inl h'
        · exact Or.inr (by simp [h'])

theorem mem_rankSort {a : ChunkEntry × Int} {l : List (ChunkEntry × Int)}
    (h : a ∈ rankSort l) : a ∈ l := by
  induction l with
  | nil => simpa [rankSort] using h
  | cons x xs ih =>
    simp only [rankSort] at h
    rcases mem_insertRanked h with h' | h'
    · simp [h']
    · exact List.mem_cons_of_mem _ (ih h')

theorem vsearch_botId {s : VectorStore} {botId : String} {q : List Int} {k : Nat}
    {c : ChunkEntry} {score : Int} (h : (c, score) ∈ vsearch s botId q k) :
    c.botId = botId := by
  have h1 : (c, score) ∈ rankSort ((s.filter (fun c => c.botId = botId)).map
      (fun c => (c, dotScore q c.vec))) := List.take_subset _ _ h
  have h2 := mem_rankSort h1
  rcases List.mem_map.mp h2 with ⟨c', hc', heq⟩
  have hb : c'.botId = botId := by
    have := List.of_mem_filter hc'
    simpa using this
  cases heq
  exact hb

theorem jsOr_ne_empty {a b : String} (hb : b ≠ "") : jsOr a b ≠ "" := by
  unfold jsOr
  split
  · exact hb
  · assumption

theorem titleFallback_ne_empty (src : RawSource) : titleFallback src ≠ "" :=
  jsOr_ne_empty (jsOr_ne_empty (jsOr_ne_empty (jsOr_ne_empty (by decide))))

theorem normalizeSource_title_ne_empty (src : RawSource) :
    (normalizeSource src).metadata.title ≠ "" := by
  unfold normalizeSource
  cases src.metadata with
  | none => exact titleFallback_ne_empty src
  | some m =>
    by_cases h : m.url ≠ "" ∧ m.title ≠ ""
    · simpa [h] using h.2
    · simpa [h] using titleFallback_ne_empty src

theorem runAborting_true_segment (pre rest : List Bool) (hpre : ∀ b ∈ pre, b = true) :
    runAborting (pre ++ rest) =
      pre.map (fun _ => ItemResult.success) ++ runAborting rest := by
  induction pre with
  | nil => simp
  | cons b bs ih =>
    have hb : b = true := hpre b (by simp)
    have hbs : ∀ x ∈ bs, x = true := fun x hx => hpre x (by simp [hx])
    simp [runAborting, hb, ih hbs]

theorem abortedRun_success_map {α : Type} (l : List α) :
    abortedRun (l.map (fun _ => ItemResult.success)) = false := by
  simp [abortedRun, List.any_map, Function.comp]

theorem runIsolated_attempted {urls : List Bool} {r : ItemResult}
    (h : r ∈ runIsolated urls) : r ≠ ItemResult.notAttempted := by
  rcases List.mem_map.mp h with ⟨b, -, hb⟩
  subst hb
  cases b <;> decide

/-! ### Claim theorems -/

/-- Claim C1: for every two bots A and B with A not equal to B and disjoint
document sets, a Vector Store search scoped to bot A never returns a chunk
owned by bot B, in every reachable store state. -/
theorem tenant_isolation (s : VectorStore) (A B : String) (q : List Int) (k : Nat)
    (hreach : Reachable s) (hAB : A ≠ B)
    (hdisj : ∀ d ∈ docsOf s A, d ∉ docsOf s B) :
    ∀ c score, (c, score) ∈ vsearch s A q k → c.botId ≠ B := by
  intro c score hmem
  have := vsearch_botId hmem
  rw [this]
  exact hAB

theorem tenant_isolation_witness : chunkA.botId ≠ "botB" :=
  tenant_isolation storeAB "botA" "botB" [1, 0] 2
    (Reachable.upsert _ _ (Reachable.upsert _ _ Reachable.empty))
    (by decide) (by decide) chunkA (dotScore [1, 0] chunkA.vec) (by decide)

/-- Claim C2: when the chat request throws (error or timeout), `sendMessage`
appends the graceful apology answer as an assistant turn after the user
turn, instead of propagating the failure, and resets `isLoading` so the
session stays usable. -/
theorem generation_failure_fallback (botId : String) (st : TestBotState) (mc : Option String)
    (hcontent : jsTrim (effectiveContent mc st.inputMessage) ≠ "")
    (hload : st.isLoading = false) :
    (sendMessage botId st mc .err).1.messages =
      st.messages ++ [⟨.user, effectiveContent mc st.inputMessage, none⟩,
        ⟨.assistant, fallbackAnswer, none⟩]
    ∧ (sendMessage botId st mc .err).1.isLoading = false := by
  unfold sendMessage
  simp [hcontent, hload]

theorem generation_failure_fallback_witness :
    (sendMessage "b1" ⟨[], "hello", false, [], false⟩ none .err).1.messages =
      [⟨.user, "hello", none⟩, ⟨.assistant, fallbackAnswer, none⟩]
    ∧ (sendMessage "b1" ⟨[], "hello", false, [], false⟩ none .err).1.isLoading = false := by
  have h := generation_failure_fallback "b1" ⟨[], "hello", false, [], false⟩ none
    (by decide) rfl
  simpa [effectiveContent] using h

/-- Claim C3 counterexample: clicking the menu option labelled "Pricing"
with hidden prompt "What are your pricing plans?" appends a user turn
whose content is the hidden prompt, not the display label, so the claim
that the display label is what appears in history is false on the code. -/
theorem menu_click_shows_prompt :
    (handleMenuOptionClick "b1" greetState pricingOpt .err).1.messages[1]? =
      some ⟨.user, "What are your pricing plans?", none⟩
    ∧ ("What are your pricing plans?" : String) ≠ pricingOpt.option_name := by
  constructor
  · decide
  · decide

/-- Claim C3 (amended): selecting a menu option sends the hidden prompt as
the effective user message to the model, and the hidden prompt itself —
not the display label — is what appears as the user turn in the
conversation history; the display label only labels the menu button. -/
theorem menu_click_effective_prompt (botId : String) (st : TestBotState) (opt : MenuOption)
    (outcome : ChatOutcome) (hp : jsTrim opt.prompt ≠ "") (hload : st.isLoading = false) :
    (handleMenuOptionClick botId st opt outcome).2 = some ⟨botId, opt.prompt⟩
    ∧ ∃ a : Message, (handleMenuOptionClick botId st opt outcome).1.messages =
        st.messages ++ [⟨.user, opt.prompt, none⟩, a] := by
  have hp' : opt.prompt ≠ "" := by
    intro h
    apply hp
    rw [h]
    rfl
  have hec : effectiveContent (some opt.prompt) st.inputMessage = opt.prompt := by
    simp [effectiveContent, hp']
  unfold handleMenuOptionClick sendMessage
  rw [hec]
  cases outcome with
  | ok d =>
    exact ⟨by simp [hp, hload],
      ⟨⟨.assistant, d.message, some (normalizeSources (d.sources.getD []))⟩,
        by simp [hp, hload]⟩⟩
  | err =>
    exact ⟨by simp [hp, hload], ⟨⟨.assistant, fallbackAnswer, none⟩, by simp [hp, hload]⟩⟩

theorem menu_click_effective_prompt_witness :
    (handleMenuOptionClick "b1" greetState pricingOpt .err).2 =
      some ⟨"b1", "What are your pricing plans?"⟩
    ∧ ∃ a : Message, (handleMenuOptionClick "b1" greetState pricingOpt .err).1.messages =
        greetState.messages ++ [⟨.user, "What are your pricing plans?", none⟩, a] := by
  have h := menu_click_effective_prompt "b1" greetState pricingOpt .err (by decide) rfl
  simpa [pricingOpt] using h

/-- Claim C4 counterexample: in the `handleBuildBot` batch, when the first
of two uploaded files fails, the second file and the URL item are never
attempted — the failure aborts the siblings instead of being collected per
item. -/
theorem build_batch_aborts :
    (handleBuildBotIngest [false, true] [true]).1 =
      [ItemResult.failed, ItemResult.notAttempted]
    ∧ (handleBuildBotIngest [false, true] [true]).2 = [ItemResult.notAttempted] := by
  constructor <;> decide

/-- Claim C4 (amended): only the URL loop of `handleUpdateBot` processes
items independently (each URL post has its own try/catch, so every URL is
attempted and failures are recorded per item); in `handleBuildBot`, and
for the file uploads of `handleUpdateBot`, the first failing item aborts
every remaining item of the batch, surfacing one aggregate error. -/
theorem batch_isolation (pre rest urls : List Bool) (hpre : ∀ b ∈ pre, b = true) :
    (handleBuildBotIngest (pre ++ false :: rest) urls).1 =
      pre.map (fun _ => ItemResult.success) ++
        ItemResult.failed :: rest.map (fun _ => ItemResult.notAttempted)
    ∧ (handleBuildBotIngest (pre ++ false :: rest) urls).2 =
        urls.map (fun _ => ItemResult.notAttempted)
    ∧ ∀ r ∈ (handleUpdateBotIngest pre urls).2, r ≠ ItemResult.notAttempted := by
  have hfiles : runAborting (pre ++ false :: rest) =
      pre.map (fun _ => ItemResult.success) ++
        ItemResult.failed :: rest.map (fun _ => ItemResult.notAttempted) := by
    rw [runAborting_true_segment pre (false :: rest) hpre]
    simp [runAborting]
  have haborted : abortedRun (runAborting (pre ++ false :: rest)) = true := by
    rw [hfiles]
    simp [abortedRun]
  have hpreall : runAborting pre = pre.map (fun _ => ItemResult.success) := by
    have := runAborting_true_segment pre [] hpre
    simpa [runAborting] using this
  refine ⟨?_, ?_, ?_⟩
  · simp only [handleBuildBotIngest]
    rw [haborted]
    exact hfiles
  · simp only [handleBuildBotIngest]
    rw [haborted]
    rfl
  · intro r hr
    have hnab : abortedRun (runAborting pre) = false := by
      rw [hpreall]
      exact abortedRun_success_map pre
    simp only [handleUpdateBotIngest] at hr
    rw [hnab] at hr
    simp only [Bool.false_eq_true, if_false] at hr
    exact runIsolated_attempted hr

theorem batch_isolation_witness :
    (handleBuildBotIngest [true, false, true] [true, false]).1 =
      [ItemResult.success, ItemResult.failed, ItemResult.notAttempted]
    ∧ (handleBuildBotIngest [true, false, true] [true, false]).2 =
        [ItemResult.notAttempted, ItemResult.notAttempted]
    ∧ ∀ r ∈ (handleUpdateBotIngest [true] [true, false]).2,
        r ≠ ItemResult.notAttempted := by
  have h := batch_isolation [true] [true] [true, false] (by decide)
  simpa using h

/-- Claim C5: a `sendMessage` run only ever appends to the conversation
history — the previous history is kept verbatim as a prefix — and a
processed turn appends exactly the user turn followed by one assistant
turn, in that order. -/
theorem turn_order (botId : String) (st : TestBotState) (mc : Option String)
    (outcome : ChatOutcome) :
    (∃ t, (sendMessage botId st mc outcome).1.messages = st.messages ++ t)
    ∧ ((sendMessage botId st mc outcome).1.messages = st.messages
       ∨ ∃ a : Message, a.role = .assistant ∧
          (sendMessage botId st mc outcome).1.messages =
            st.messages ++ [⟨.user, effectiveContent mc st.inputMessage, none⟩, a]) := by
  unfold sendMessage
  by_cases hg : jsTrim (effectiveContent mc st.inputMessage) = "" ∨ st.isLoading = true
  · simp [hg]
  · cases outcome with
    | ok d =>
      refine ⟨⟨[⟨.user, effectiveContent mc st.inputMessage, none⟩,
          ⟨.assistant, d.message, some (normalizeSources (d.sources.getD []))⟩], by simp [hg]⟩,
        Or.inr ⟨⟨.assistant, d.message, some (normalizeSources (d.sources.getD []))⟩,
          rfl, by simp [hg]⟩⟩
    | err =>
      refine ⟨⟨[⟨.user, effectiveContent mc st.inputMessage, none⟩,
          ⟨.assistant, fallbackAnswer, none⟩], by simp [hg]⟩,
        Or.inr ⟨⟨.assistant, fallbackAnswer, none⟩, rfl, by simp [hg]⟩⟩

/-- Claim C6 counterexample: two sends with the same bot, input text and
outcome but different conversation histories issue the exact same chat
request, so the request cannot carry the caller-managed session/history;
it carries only the bot id and the message text. -/
theorem chat_request_no_history :
    ([] : List Message) ≠
      [(⟨.user, "earlier", none⟩ : Message), ⟨.assistant, "reply", none⟩]
    ∧ (sendMessage "b1" ⟨[], "hello", false, [], false⟩ none .err).2 =
        (sendMessage "b1"
          ⟨[⟨.user, "earlier", none⟩, ⟨.assistant, "reply", none⟩], "hello", false, [], false⟩
          none .err).2
    ∧ (sendMessage "b1" ⟨[], "hello", false, [], false⟩ none .err).2 =
        some ⟨"b1", "hello"⟩ := by
  refine ⟨by decide, ?_, ?_⟩ <;> decide

/-- Claim C6 (amended): every chat-turn request carries exactly the bot id
(in the URL path) and the new message text; the session/history is
caller-managed client state that is never part of the request, which is
therefore independent of the conversation history. -/
theorem chat_request_fields (botId : String) (st : TestBotState) (mc : Option String)
    (outcome : ChatOutcome) :
    ((sendMessage botId st mc outcome).2 = none
      ∨ (sendMessage botId st mc outcome).2 =
          some ⟨botId, effectiveContent mc st.inputMessage⟩)
    ∧ ∀ msgs2 : List Message,
        (sendMessage botId { st with messages := msgs2 } mc outcome).2 =
          (sendMessage botId st mc outcome).2 := by
  unfold sendMessage
  by_cases hg : jsTrim (effectiveContent mc st.inputMessage) = "" ∨ st.isLoading = true
  · exact ⟨Or.inl (by simp [hg]), fun msgs2 => by simp [hg]⟩
  · exact ⟨Or.inr (by simp [hg]), fun msgs2 => by simp [hg]⟩

/-- Claim C7: on a successful chat turn the assistant turn carries the
normalized source list; every normalized source has a metadata record with
`url` and `title` fields whose title is never empty (falling back through
title, name, filename, url to the literal "Source"), and a source with
nothing defined normalizes to url `""` and title `"Source"`. -/
theorem sources_normalized (botId : String) (st : TestBotState) (mc : Option String)
    (d : ChatResponseData)
    (hcontent : jsTrim (effectiveContent mc st.inputMessage) ≠ "")
    (hload : st.isLoading = false) :
    (sendMessage botId st mc (.ok d)).1.messages =
      st.messages ++ [⟨.user, effectiveContent mc st.inputMessage, none⟩,
        ⟨.assistant, d.message, some (normalizeSources (d.sources.getD []))⟩]
    ∧ (∀ n ∈ normalizeSources (d.sources.getD []), n.metadata.title ≠ "")
    ∧ (normalizeSource emptyRawSource).metadata = ⟨"", "Source"⟩ := by
  refine ⟨?_, ?_, ?_⟩
  · unfold sendMessage
    simp [hcontent, hload]
  · intro n hn
    unfold normalizeSources at hn
    by_cases hl : 0 < (d.sources.getD []).length
    · simp only [hl, if_pos] at hn
      rcases List.mem_map.mp hn with ⟨src, _, hsrc⟩
      rw [← hsrc]
      exact normalizeSource_title_ne_empty src
    · simp [hl] at hn
  · decide

theorem sources_normalized_witness :
    (normalizeSource emptyRawSource).metadata.title ≠ "" := by
  have h := sources_normalized "b1" ⟨[], "hi", false, [], false⟩ none
    ⟨"Answer", some [emptyRawSource]⟩ (by decide) rfl
  exact h.2.1 (normalizeSource emptyRawSource) (by simp [normalizeSources])

/-- Claim C8: a `sendMessage` call with a blank (empty or whitespace-only)
effective message, or made while a previous request is still loading,
leaves the whole component state unchanged — history, input field and all
— and issues no chat request. -/
theorem send_guard (botId : String) (st : TestBotState) (mc : Option String)
    (outcome : ChatOutcome)
    (h : jsTrim (effectiveContent mc st.inputMessage) = "" ∨ st.isLoading = true) :
    sendMessage botId st mc outcome = (st, none) := by
  unfold sendMessage
  rw [if_pos h]

theorem send_guard_witness :
    sendMessage "b1" ⟨[], "   ", false, [], false⟩ none .err =
      (⟨[], "   ", false, [], false⟩, none) :=
  send_guard "b1" ⟨[], "   ", false, [], false⟩ none .err (Or.inl (by decide))

/-- Claim C9: after `restartChat` the history is exactly one assistant turn
holding the greeting when the loaded bot has a truthy greeting message,
and empty otherwise (including when no bot is loaded); the input field and
the per-message source panels are reset in both cases. -/
theorem restart_greeting (bot : Option BotInfo) (st : TestBotState) :
    (restartChat bot st).messages =
      (match bot with
        | some b =>
          if b.greeting_message = "" then []
          else [⟨.assistant, b.greeting_message, none⟩]
        | none => [])
    ∧ (restartChat bot st).inputMessage = ""
    ∧ (restartChat bot st).showSources = [] := by
  cases bot with
  | none => simp [restartChat, clearChat]
  | some b =>
    by_cases h : b.greeting_message = "" <;> simp [restartChat, clearChat, h]

/-- Claim C10: `ChatWidget` renders the menu-option button row exactly when
the history is a single assistant turn (the greeting) and the bot defines
`menu_options`; in that case one button is rendered per option, labelled
with its `option_name`. -/
theorem menu_render (msgs : List Message) (mo : Option (List MenuOption)) :
    ((menuButtons msgs mo).isSome ↔
      ∃ m opts, msgs = [m] ∧ m.role = .assistant ∧ mo = some opts)
    ∧ ∀ m opts, msgs = [m] → m.role = .assistant → mo = some opts →
        menuButtons msgs mo = some (opts.map (fun o => o.option_name)) := by
  constructor
  · match msgs, mo with
    | [], _ => simp [menuButtons]
    | [m], none => simp [menuButtons]
    | [m], some opts =>
      by_cases h : m.role = .assistant <;> simp [menuButtons, h]
    | m1 :: m2 :: ms, mo => simp [menuButtons]
  · intro m opts h1 h2 h3
    subst h1
    subst h3
    simp [menuButtons, h2]

theorem menu_render_witness :
    menuButtons [⟨.assistant, "Hello!", none⟩] (some [⟨"Pricing", "What are your pricing plans?"⟩]) =
      some ["Pricing"] :=
  (menu_render _ _).2 _ _ rfl rfl rfl

end Botsy
